import Mathlib

/-!
Shallow embedding of `src/process_ucmr4.py` (UCMR 4 water-quality processing
script). Pandas DataFrames become lists of records; missing numeric cells
(pandas `NaN`) become `Option ℚ` / `WithTop ℚ` / `WithBot ℚ`; string columns
become `String` fields. The script's module-level statements (lines 134-188)
become the pure function `pipeline`.
-/

namespace UCMR4

/-- One row of the analytical table after `usecols=TARGET_COLS` column pruning
(source lines 27-32): the sixteen retained columns. Numeric columns
(`MRL`, `AnalyticalResultValue(µg/L)`) may hold pandas `NaN`, modelled as
`none`. Field `AnalyticalResultValue` stands for the column named
`AnalyticalResultValue(µg/L)` in the source. -/
structure Record where
  PWSID : String := ""
  PWSName : String := ""
  FacilityID : String := ""
  FacilityName : String := ""
  FacilityWaterType : String := ""
  SamplePointID : String := ""
  SamplePointType : String := ""
  CollectionDate : String := ""
  SampleID : String := ""
  Contaminant : String := ""
  MRL : Option ℚ := none
  MethodID : String := ""
  AnalyticalResultsSign : String := ""
  AnalyticalResultValue : Option ℚ := none
  Region : String := ""
  State : String := ""
deriving DecidableEq, Repr

/-- Source lines 34-37: the two interactive prompts and their accepted
answers. There is no temporal-aggregation prompt in the script. -/
def PROMPTS_DICT : List (String × List String) :=
  [("non-detect representation", ["0", "half", "mrl"]),
   ("spatial aggregation", ["none", "state", "region"])]

/-- Source lines 81-103, `process_nondetects(row, assumption)`. For a
non-detect row (sign `<`) the three recognized assumptions return `0`,
`MRL/2` and `MRL`; any other assumption falls through every `if` inside the
`then` branch and the Python function returns `None` (modelled `none`).
For a detected row the reported value is returned unchanged. Dividing a
missing MRL (`NaN`) by 2 stays missing, hence `Option.map`. -/
def process_nondetects (row : Record) (assumption : String) : Option ℚ :=
  if row.AnalyticalResultsSign = "<" then
    if assumption = "0" then some 0
    else if assumption = "half" then row.MRL.map (fun m => m / 2)
    else if assumption = "mrl" then row.MRL
    else none
  else
    row.AnalyticalResultValue

/-- Character-level model of the regex substitution on source lines 152-154:
`State.str.replace(r'[0-9]+', 'Tribal PWS', regex=True)`. Every maximal run
of ASCII digits is replaced by the string `Tribal PWS`; the Boolean flag
records whether the previous character was part of a digit run already
replaced. -/
def cleanStateChars : List Char → Bool → List Char
  | [], _ => []
  | c :: cs, inRun =>
    if c.isDigit then
      if inRun then cleanStateChars cs true
      else ("Tribal PWS".data) ++ cleanStateChars cs true
    else c :: cleanStateChars cs false

/-- The cleaned `State` value of one record (source lines 152-154). -/
def cleanState (s : String) : String := ⟨cleanStateChars s.data false⟩

/-- Python's `str.strip()` as used on source line 146: surrounding
whitespace characters are removed from both ends. -/
def pyStrip (s : String) : String :=
  ⟨((s.data.dropWhile Char.isWhitespace).reverse.dropWhile
      Char.isWhitespace).reverse⟩

/-- The per-record effect of the cleaning block, source lines 146 and
152-154: `PWSID` is stripped of surrounding whitespace and `State` has its
digit runs rewritten to `Tribal PWS`. -/
def cleanRecord (r : Record) : Record :=
  { r with PWSID := pyStrip r.PWSID, State := cleanState r.State }

/-- Ascending order on `PWSID` values: lexicographic by character code
point, as pandas compares Python strings. -/
def pwsidLE (a b : Record) : Prop := a.PWSID.data ≤ b.PWSID.data

instance : DecidableRel pwsidLE :=
  fun a b => inferInstanceAs (Decidable (a.PWSID.data ≤ b.PWSID.data))

/-- Source line 147, `analytical_df.sort_values(by=['PWSID'])`: the sorted
copy of the table. In the script this expression's result is discarded (it
is neither assigned nor computed `inplace`), so `pipeline` below never uses
this function; it is kept to state what the discarded value would have been. -/
def sort_values (df : List Record) : List Record :=
  List.insertionSort pwsidLE df

/-- Python's `str.capitalize()` as used on source line 183
(`agg_value.capitalize()`): first character upper-cased, the rest
lower-cased. -/
def pyCapitalize (s : String) : String :=
  ⟨match s.data with
   | [] => []
   | c :: cs => c.toUpper :: cs.map Char.toLower⟩

/-- A record together with the derived column `Processed Result (µg/L)`
added on source lines 173-176; the processed result may be missing (`NaN`),
since `process_nondetects` can return `None`/`NaN`. -/
structure ProcRow where
  row : Record
  processedResult : Option ℚ
deriving DecidableEq, Repr

/-- Column lookup by name for the string columns the script ever passes to
`groupby` (source lines 119-124: the `agg_value` column, which the
orchestrator makes `"State"` or `"Region"`, and `"Contaminant"`). -/
def getCol (r : Record) (c : String) : String :=
  if c = "State" then r.State
  else if c = "Region" then r.Region
  else if c = "Contaminant" then r.Contaminant
  else ""

/-- The grouping key of one processed row: the pair formed by the
`agg_value` column and the `Contaminant` column, exactly the key list
`[agg_value, 'Contaminant']` of the `groupby` calls on lines 119-124. -/
def keyOf (aggValue : String) (p : ProcRow) : String × String :=
  (getCol p.row aggValue, p.row.Contaminant)

/-- Ascending order on grouping keys: first component ascending, ties broken
by the second component ascending — the order pandas' sorted `groupby`
emits groups in. -/
def keyLE (a b : String × String) : Prop :=
  a.1 < b.1 ∨ (a.1 = b.1 ∧ a.2 ≤ b.2)

instance : DecidableRel keyLE := fun a b => by
  unfold keyLE; exact inferInstance

instance : IsTotal (String × String) keyLE := by
  constructor
  intro a b
  rcases lt_trichotomy a.1 b.1 with h | h | h
  · exact Or.inl (Or.inl h)
  · rcases le_total a.2 b.2 with h2 | h2
    · exact Or.inl (Or.inr ⟨h, h2⟩)
    · exact Or.inr (Or.inr ⟨h.symm, h2⟩)
  · exact Or.inr (Or.inl h)

instance : IsTrans (String × String) keyLE := by
  constructor
  intro a b c hab hbc
  rcases hab with h1 | ⟨e1, l1⟩
  · rcases hbc with h2 | ⟨e2, _⟩
    · exact Or.inl (h1.trans h2)
    · exact Or.inl (e2 ▸ h1)
  · rcases hbc with h2 | ⟨e2, l2⟩
    · exact Or.inl (e1 ▸ h2)
    · exact Or.inr ⟨e1.trans e2, l1.trans l2⟩

/-- One output row of `get_aggregated_df` after `reset_index` (source lines
117-128): the two index columns followed by `Min (µg/L)`,
`Average (µg/L)`, `Max (µg/L)`. Pandas `min`/`mean`/`max` skip `NaN`
values; a group whose present values are empty yields `NaN`, modelled by
the top/bottom/`none` element. -/
structure AggRow where
  groupVal : String
  Contaminant : String
  minResult : WithTop ℚ
  avgResult : Option ℚ
  maxResult : WithBot ℚ
deriving DecidableEq, Repr

/-- The rows of `df` falling in the group of key `k`. -/
def partitionOf (df : List ProcRow) (aggValue : String) (k : String × String) :
    List ProcRow :=
  df.filter (fun p => decide (keyOf aggValue p = k))

/-- The present (non-`NaN`) processed results of a list of rows, the values
pandas' skip-`NaN` reductions actually aggregate. -/
def presentValues (l : List ProcRow) : List ℚ :=
  l.filterMap (fun p => p.processedResult)

/-- The aggregate row computed for the group of key `k`: minimum, arithmetic
mean and maximum of the group's present processed results (source lines
119-124). -/
def statsRow (df : List ProcRow) (aggValue : String) (k : String × String) :
    AggRow :=
  let vals := presentValues (partitionOf df aggValue k)
  { groupVal := k.1, Contaminant := k.2,
    minResult := vals.minimum,
    avgResult := if vals = [] then none else some (vals.sum / vals.length),
    maxResult := vals.maximum }

/-- The distinct grouping keys of `df`, in the ascending order pandas'
sorted `groupby` uses. -/
def sortedKeys (df : List ProcRow) (aggValue : String) :
    List (String × String) :=
  List.insertionSort keyLE ((df.map (keyOf aggValue)).dedup)

/-- Source lines 106-128, `get_aggregated_df(df, agg_value)`: one aggregate
row per distinct `(agg_value column, Contaminant)` pair, emitted in
ascending key order (pandas `groupby` sorts group keys), each row holding
the group's min, mean and max of `Processed Result (µg/L)`. -/
def get_aggregated_df (df : List ProcRow) (aggValue : String) : List AggRow :=
  (sortedKeys df aggValue).map (statsRow df aggValue)

/-- The final table of the script: either the per-record table with the
`Processed Result (µg/L)` column attached, or the aggregated table. -/
inductive Output where
  | perRecord (rows : List ProcRow)
  | aggregated (rows : List AggRow)
deriving DecidableEq, Repr

/-- The module-level pipeline, source lines 134-188, after the external
collaborators (file loading, prompting) have produced the concatenated
input tables `dfs` and the validated decisions `ndValue` (accepted values
`0`, `half`, `mrl` — the spec's `zero` / `half-mrl` / `at-mrl`) and
`aggValue` (accepted values `none`, `state`, `region`): concatenation
(line 143), cleaning (lines 146-154; the discarded `sort_values` on line
147 has no effect), resolution of non-detects (lines 173-176), and the
optional aggregation (lines 180-183). -/
def pipeline (dfs : List (List Record)) (ndValue aggValue : String) : Output :=
  let analytical := (dfs.flatten).map cleanRecord
  let processed := analytical.map
    (fun r => { row := r, processedResult := process_nondetects r ndValue : ProcRow })
  if aggValue ≠ "none" then
    Output.aggregated (get_aggregated_df processed (pyCapitalize aggValue))
  else
    Output.perRecord processed

/-- The deterministic output identifier of source line 186, embedding the
chosen policy and aggregation mode. -/
def output_filename (ndValue aggValue : String) : String :=
  "UCMR4_NDs-as-" ++ ndValue ++ "_Agg-by-" ++ aggValue

/-- Concrete sample table used to instantiate the aggregation theorems: two
already-resolved rows for contaminant `X` in state `CA` with processed
results 1 and 5. -/
def sampleDf : List ProcRow :=
  [⟨{ State := "CA", Contaminant := "X", AnalyticalResultsSign := "<",
      MRL := some 2 }, some 1⟩,
   ⟨{ State := "CA", Contaminant := "X", AnalyticalResultValue := some 5 },
     some 5⟩]

/-- The aggregate row the script computes for `sampleDf` grouped by state. -/
def sampleRow : AggRow :=
  { groupVal := "CA", Contaminant := "X", minResult := ((1 : ℚ) : WithTop ℚ),
    avgResult := some 3, maxResult := ((5 : ℚ) : WithBot ℚ) }

/-! ## Theorems -/

/-- Every character emitted by the state-cleanup scan is a non-digit: it is
either a character of the replacement string `Tribal PWS` or a non-digit
character of the input. -/
theorem cleanStateChars_not_digit :
    ∀ (l : List Char) (b : Bool) (c : Char),
      c ∈ cleanStateChars l b → c.isDigit = false := by
  intro l
  induction l with
  | nil =>
    intro b c h
    simp [cleanStateChars] at h
  | cons a t ih =>
    intro b
    cases b with
    | false =>
      intro c h
      by_cases hd : a.isDigit
      · simp only [cleanStateChars, hd, Bool.false_eq_true, if_false, if_true,
          eq_self_iff_true, List.mem_append] at h
        rcases h with h | h
        · have htr : ∀ x ∈ "Tribal PWS".data, x.isDigit = false := by decide
          exact htr c h
        · exact ih true c h
      · have hd' : a.isDigit = false := by simpa using hd
        simp only [cleanStateChars, hd', Bool.false_eq_true, if_false,
          List.mem_cons] at h
        rcases h with h | h
        · subst h; exact hd'
        · exact ih false c h
    | true =>
      intro c h
      by_cases hd : a.isDigit
      · simp only [cleanStateChars, hd, eq_self_iff_true, if_true] at h
        exact ih true c h
      · have hd' : a.isDigit = false := by simpa using hd
        simp only [cleanStateChars, hd', Bool.false_eq_true, if_false,
          List.mem_cons] at h
        rcases h with h | h
        · subst h; exact hd'
        · exact ih false c h

/-- C1: for every record whose comparison sign is `<` (non-detect), the
resolver returns 0 under the zero policy (code string `"0"`), MRL/2 under
the half-MRL policy (code string `"half"`), and the MRL under the at-MRL
policy (code string `"mrl"`); for every record whose sign is not `<`, the
resolver returns the reported analytical value unchanged for every policy. -/
theorem C1_resolver_policy_semantics (r : Record) (m : ℚ) (policy : String) :
    (r.AnalyticalResultsSign = "<" → r.MRL = some m →
      process_nondetects r "0" = some 0 ∧
      process_nondetects r "half" = some (m / 2) ∧
      process_nondetects r "mrl" = some m) ∧
    (r.AnalyticalResultsSign ≠ "<" →
      process_nondetects r policy = r.AnalyticalResultValue) := by
  constructor
  · intro hs hm
    refine ⟨?_, ?_, ?_⟩ <;> simp [process_nondetects, hs, hm]
  · intro hs
    simp [process_nondetects, hs]

/-- Witness for C1: a concrete non-detect record with MRL 2 resolves to 2/2
under the half-MRL policy, and a concrete detected record with reported
value 5 resolves to 5 under the zero policy. -/
theorem C1_resolver_policy_semantics_witness :
    process_nondetects { AnalyticalResultsSign := "<", MRL := some 2 } "half"
      = some (2 / 2) ∧
    process_nondetects
      { AnalyticalResultsSign := "", AnalyticalResultValue := some 5 } "0"
      = some 5 :=
  ⟨((C1_resolver_policy_semantics
      { AnalyticalResultsSign := "<", MRL := some 2 } 2 "half").1 rfl rfl).2.1,
   (C1_resolver_policy_semantics
      { AnalyticalResultsSign := "", AnalyticalResultValue := some 5 } 2 "0").2
      (by decide)⟩

/-- C2 counterexample: the script offers no temporal aggregation mode at all
— its two prompts are non-detect representation and spatial aggregation —
and grouping ignores the collection date: two records identical except for
collection dates in different months and years land in a single aggregate
row, whereas the claim's `monthly` mode would require two. -/
theorem C2_counterexample :
    PROMPTS_DICT.map Prod.fst = ["non-detect representation", "spatial aggregation"] ∧
    (get_aggregated_df
      [⟨{ State := "CA", Contaminant := "X", CollectionDate := "01/15/2018" }, some 1⟩,
       ⟨{ State := "CA", Contaminant := "X", CollectionDate := "07/20/2019" }, some 3⟩]
      "State").length = 1 := by
  constructor
  · rfl
  · rfl

/-- C2 amended: the grouping key has no temporal component under any
configuration: the key of a row is unchanged by any rewrite of its
collection date, and no prompt of the script is a temporal-aggregation
prompt. -/
theorem C2_no_temporal_component (aggValue : String) (p : ProcRow) (d : String) :
    keyOf aggValue ⟨{ p.row with CollectionDate := d }, p.processedResult⟩
      = keyOf aggValue p ∧
    ∀ entry ∈ PROMPTS_DICT, entry.1 ≠ "temporal aggregation" := by
  constructor
  · simp [keyOf, getCol]
  · decide

/-- Witness for C2's amended theorem at a concrete row and date. -/
theorem C2_no_temporal_component_witness :
    ("non-detect representation", ["0", "half", "mrl"]).1 ≠ "temporal aggregation" :=
  (C2_no_temporal_component "State" ⟨{}, none⟩ "07/20/2019").2 _ (by decide)

/-- C3 counterexample: on a non-detect record with the unrecognized policy
string `"median"`, the resolver does not fail with any error: the source
function has no error path (no `raise` anywhere in the script) and falls
through every branch, returning Python `None` — a normal return of a
missing value, not an `InvalidPolicy` failure. -/
theorem C3_counterexample :
    process_nondetects { AnalyticalResultsSign := "<", MRL := some 2 } "median"
      = none := by
  decide

/-- C3 amended: for every non-detect record, if the policy argument is not
one of the three recognized values, the resolver returns `none` (Python
`None`); it raises no error — no `InvalidPolicy` error exists in the code. -/
theorem C3_unrecognized_policy_returns_none (r : Record) (policy : String)
    (hs : r.AnalyticalResultsSign = "<")
    (h0 : policy ≠ "0") (h1 : policy ≠ "half") (h2 : policy ≠ "mrl") :
    process_nondetects r policy = none := by
  simp [process_nondetects, hs, h0, h1, h2]

/-- Witness for C3's amended theorem at a concrete record and policy. -/
theorem C3_unrecognized_policy_returns_none_witness :
    process_nondetects
      { AnalyticalResultsSign := "<", MRL := some 3, Contaminant := "PFOA" }
      "bogus" = none :=
  C3_unrecognized_policy_returns_none _ _ rfl (by decide) (by decide) (by decide)

/-- C4 counterexample: on a non-detect record whose MRL is absent the
resolver does not fail with any error: under the half-MRL policy it
produces a missing numeric result (`NaN / 2` is `NaN`), and under the zero
policy it substitutes the default 0 — both outcomes the claim rules out. -/
theorem C4_counterexample :
    process_nondetects { AnalyticalResultsSign := "<", MRL := none } "half"
      = none ∧
    process_nondetects { AnalyticalResultsSign := "<", MRL := none } "0"
      = some 0 := by
  constructor <;> decide

/-- C4 amended: for every non-detect record whose MRL is absent, the
resolver raises no `MissingMRL` error: it returns 0 under the zero policy
and a missing numeric result under the half-MRL and at-MRL policies. -/
theorem C4_missing_mrl_no_error (r : Record)
    (hs : r.AnalyticalResultsSign = "<") (hm : r.MRL = none) :
    process_nondetects r "0" = some 0 ∧
    process_nondetects r "half" = none ∧
    process_nondetects r "mrl" = none := by
  refine ⟨?_, ?_, ?_⟩ <;> simp [process_nondetects, hs, hm]

/-- Witness for C4's amended theorem at a concrete record. -/
theorem C4_missing_mrl_no_error_witness :
    process_nondetects
      { AnalyticalResultsSign := "<", MRL := none, Contaminant := "HAA5" }
      "mrl" = none :=
  (C4_missing_mrl_no_error _ rfl rfl).2.2

/-- C5: for every input table and aggregation column, the sequence of
aggregate rows is sorted ascending by grouping-key value, ties broken by
contaminant name ascending (`keyLE` is exactly that lexicographic order). -/
theorem C5_output_sorted (df : List ProcRow) (aggValue : String) :
    List.Sorted keyLE
      ((get_aggregated_df df aggValue).map (fun a => (a.groupVal, a.Contaminant))) := by
  have hcomp :
      ((fun a : AggRow => (a.groupVal, a.Contaminant)) ∘ statsRow df aggValue)
        = id := rfl
  unfold get_aggregated_df
  rw [List.map_map, hcomp, List.map_id]
  exact List.sorted_insertionSort keyLE _

/-- Membership in the sorted key list is membership among the keys of the
table's rows. -/
theorem mem_sortedKeys_iff (df : List ProcRow) (aggValue : String)
    (k : String × String) :
    k ∈ sortedKeys df aggValue ↔ ∃ p ∈ df, keyOf aggValue p = k := by
  unfold sortedKeys
  rw [List.mem_insertionSort, List.mem_dedup, List.mem_map]

/-- Membership in a partition is membership in the table with the matching
key. -/
theorem mem_partitionOf (df : List ProcRow) (aggValue : String)
    (k : String × String) (p : ProcRow) :
    p ∈ partitionOf df aggValue k ↔ p ∈ df ∧ keyOf aggValue p = k := by
  unfold partitionOf
  rw [List.mem_filter]
  simp only [decide_eq_true_eq]

/-- A partition's size is the multiplicity of its key among the rows' keys. -/
theorem length_partitionOf (df : List ProcRow) (aggValue : String)
    (k : String × String) :
    (partitionOf df aggValue k).length
      = @List.count (String × String) instBEqOfDecidableEq k
          (df.map (keyOf aggValue)) :=
  calc (partitionOf df aggValue k).length
      = List.countP (fun p => decide (keyOf aggValue p = k)) df :=
        (List.countP_eq_length_filter _ _).symm
    _ = List.countP
          ((fun x : String × String => decide (x = k)) ∘ keyOf aggValue) df :=
        rfl
    _ = List.countP (fun x => decide (x = k)) (df.map (keyOf aggValue)) :=
        (List.countP_map _ _ _).symm
    _ = @List.count (String × String) instBEqOfDecidableEq k
          (df.map (keyOf aggValue)) := rfl

/-- The aggregate row of a key occurring in the table: its min, mean and max
fields are the minimum, unweighted arithmetic mean and maximum of the
partition's present processed results, and the mean lies between the other
two. -/
theorem statsRow_spec (df : List ProcRow) (aggValue : String)
    (k : String × String) (hk : k ∈ sortedKeys df aggValue)
    (hall : ∀ p ∈ df, p.processedResult ≠ none) :
    ∃ mn av mx : ℚ,
      (statsRow df aggValue k).minResult = (mn : WithTop ℚ) ∧
      (statsRow df aggValue k).avgResult = some av ∧
      (statsRow df aggValue k).maxResult = (mx : WithBot ℚ) ∧
      mn ∈ presentValues (partitionOf df aggValue k) ∧
      mx ∈ presentValues (partitionOf df aggValue k) ∧
      (∀ x ∈ presentValues (partitionOf df aggValue k), mn ≤ x ∧ x ≤ mx) ∧
      av = (presentValues (partitionOf df aggValue k)).sum
            / (presentValues (partitionOf df aggValue k)).length ∧
      mn ≤ av ∧ av ≤ mx := by
  obtain ⟨p, hp, hpk⟩ := (mem_sortedKeys_iff df aggValue k).1 hk
  have hpm : p ∈ partitionOf df aggValue k :=
    (mem_partitionOf df aggValue k p).2 ⟨hp, hpk⟩
  obtain ⟨v, hv⟩ := Option.ne_none_iff_exists'.1 (hall p hp)
  have hvm : v ∈ presentValues (partitionOf df aggValue k) :=
    List.mem_filterMap.2 ⟨p, hpm, hv⟩
  have hne : presentValues (partitionOf df aggValue k) ≠ [] :=
    List.ne_nil_of_mem hvm
  obtain ⟨mn, hmn⟩ :=
    WithTop.ne_top_iff_exists.1 (List.minimum_ne_top_of_ne_nil hne)
  obtain ⟨mx, hmx⟩ :=
    WithBot.ne_bot_iff_exists.1 (List.maximum_ne_bot_of_ne_nil hne)
  have hmn' := List.minimum_eq_coe_iff.1 hmn.symm
  have hmx' := List.maximum_eq_coe_iff.1 hmx.symm
  have hlen : (0 : ℚ) < (presentValues (partitionOf df aggValue k)).length := by
    exact_mod_cast List.length_pos.2 hne
  refine ⟨mn, (presentValues (partitionOf df aggValue k)).sum
      / (presentValues (partitionOf df aggValue k)).length, mx,
    ?_, ?_, ?_, hmn'.1, hmx'.1, ?_, rfl, ?_, ?_⟩
  · exact hmn.symm
  · show (if presentValues (partitionOf df aggValue k) = [] then none
      else some ((presentValues (partitionOf df aggValue k)).sum
        / (presentValues (partitionOf df aggValue k)).length)) = _
    rw [if_neg hne]
  · exact hmx.symm
  · intro x hx
    exact ⟨hmn'.2 x hx, hmx'.2 x hx⟩
  · rw [le_div_iff₀ hlen]
    calc mn * (presentValues (partitionOf df aggValue k)).length
        = (presentValues (partitionOf df aggValue k)).length • mn := by
          rw [nsmul_eq_mul, mul_comm]
      _ ≤ (presentValues (partitionOf df aggValue k)).sum :=
          List.card_nsmul_le_sum _ mn hmn'.2
  · rw [div_le_iff₀ hlen]
    calc (presentValues (partitionOf df aggValue k)).sum
        ≤ (presentValues (partitionOf df aggValue k)).length • mx :=
          List.sum_le_card_nsmul _ mx hmx'.2
      _ = mx * (presentValues (partitionOf df aggValue k)).length := by
          rw [nsmul_eq_mul, mul_comm]

/-- C6: for every partition emitted by the aggregation engine (on a table
whose processed results are all present), the aggregate row's min, mean
and max are respectively the minimum, unweighted arithmetic mean and
maximum of the partition's Processed Result values, and
min ≤ mean ≤ max. -/
theorem C6_min_le_mean_le_max (df : List ProcRow) (aggValue : String)
    (hall : ∀ p ∈ df, p.processedResult ≠ none) :
    ∀ a ∈ get_aggregated_df df aggValue, ∃ mn av mx : ℚ,
      a.minResult = (mn : WithTop ℚ) ∧
      a.avgResult = some av ∧
      a.maxResult = (mx : WithBot ℚ) ∧
      mn ∈ presentValues (partitionOf df aggValue (a.groupVal, a.Contaminant)) ∧
      mx ∈ presentValues (partitionOf df aggValue (a.groupVal, a.Contaminant)) ∧
      (∀ x ∈ presentValues (partitionOf df aggValue (a.groupVal, a.Contaminant)),
        mn ≤ x ∧ x ≤ mx) ∧
      av = (presentValues (partitionOf df aggValue (a.groupVal, a.Contaminant))).sum
            / (presentValues (partitionOf df aggValue (a.groupVal, a.Contaminant))).length ∧
      mn ≤ av ∧ av ≤ mx := by
  intro a ha
  rcases List.mem_map.1 ha with ⟨k, hk, rfl⟩
  exact statsRow_spec df aggValue k hk hall

/-- Witness for C6 at the concrete two-row table `sampleDf` and its single
aggregate row. -/
theorem C6_min_le_mean_le_max_witness :
    ∃ mn av mx : ℚ,
      ((get_aggregated_df sampleDf "State").head (by decide)).minResult
        = (mn : WithTop ℚ) ∧
      ((get_aggregated_df sampleDf "State").head (by decide)).avgResult
        = some av ∧
      ((get_aggregated_df sampleDf "State").head (by decide)).maxResult
        = (mx : WithBot ℚ) ∧
      mn ∈ presentValues (partitionOf sampleDf "State"
        (((get_aggregated_df sampleDf "State").head (by decide)).groupVal,
         ((get_aggregated_df sampleDf "State").head (by decide)).Contaminant)) ∧
      mx ∈ presentValues (partitionOf sampleDf "State"
        (((get_aggregated_df sampleDf "State").head (by decide)).groupVal,
         ((get_aggregated_df sampleDf "State").head (by decide)).Contaminant)) ∧
      (∀ x ∈ presentValues (partitionOf sampleDf "State"
        (((get_aggregated_df sampleDf "State").head (by decide)).groupVal,
         ((get_aggregated_df sampleDf "State").head (by decide)).Contaminant)),
        mn ≤ x ∧ x ≤ mx) ∧
      av = (presentValues (partitionOf sampleDf "State"
        (((get_aggregated_df sampleDf "State").head (by decide)).groupVal,
         ((get_aggregated_df sampleDf "State").head (by decide)).Contaminant))).sum
            / (presentValues (partitionOf sampleDf "State"
        (((get_aggregated_df sampleDf "State").head (by decide)).groupVal,
         ((get_aggregated_df sampleDf "State").head (by decide)).Contaminant))).length ∧
      mn ≤ av ∧ av ≤ mx :=
  C6_min_le_mean_le_max sampleDf "State" (by decide) _ (List.head_mem _)

/-- C7: the number of aggregate rows equals the number of distinct
(grouping key, contaminant) pairs among the rows; the partition sizes over
the emitted keys sum to the total row count; and no partition is empty. -/
theorem C7_partition_invariants (df : List ProcRow) (aggValue : String) :
    (get_aggregated_df df aggValue).length
        = ((df.map (keyOf aggValue)).dedup).length ∧
    ((sortedKeys df aggValue).map
        (fun k => (partitionOf df aggValue k).length)).sum = df.length ∧
    ∀ k ∈ sortedKeys df aggValue, partitionOf df aggValue k ≠ [] := by
  refine ⟨?_, ?_, ?_⟩
  · unfold get_aggregated_df sortedKeys
    rw [List.length_map]
    exact (List.perm_insertionSort keyLE _).length_eq
  · have hperm : List.Perm
        ((sortedKeys df aggValue).map
          (fun k => (partitionOf df aggValue k).length))
        (((df.map (keyOf aggValue)).dedup).map
          (fun k => (partitionOf df aggValue k).length)) :=
      (List.perm_insertionSort keyLE _).map _
    rw [hperm.sum_eq]
    simp only [length_partitionOf df aggValue]
    have h := List.sum_map_count_dedup_eq_length (df.map (keyOf aggValue))
    rw [List.length_map] at h
    exact h
  · intro k hk
    obtain ⟨p, hp, hpk⟩ := (mem_sortedKeys_iff df aggValue k).1 hk
    exact List.ne_nil_of_mem ((mem_partitionOf df aggValue k p).2 ⟨hp, hpk⟩)

/-- Witness for C7's no-empty-partition part at the concrete table
`sampleDf`. -/
theorem C7_partition_invariants_witness :
    partitionOf sampleDf "State" ("CA", "X") ≠ [] :=
  (C7_partition_invariants sampleDf "State").2.2 ("CA", "X") (by decide)

/-- C8: the pipeline is deterministic — two runs on equal input tables and
equal validated configuration produce equal output tables. -/
theorem C8_pipeline_deterministic (dfs dfs' : List (List Record))
    (nd nd' agg agg' : String)
    (h1 : dfs = dfs') (h2 : nd = nd') (h3 : agg = agg') :
    pipeline dfs nd agg = pipeline dfs' nd' agg' := by
  subst h1; subst h2; subst h3; rfl

/-- Witness for C8 at a concrete input table and configuration. -/
theorem C8_pipeline_deterministic_witness :
    pipeline [[{ State := "CA", Contaminant := "X" }]] "half" "none"
      = pipeline [[{ State := "CA", Contaminant := "X" }]] "half" "none" :=
  C8_pipeline_deterministic _ _ _ _ _ _ rfl rfl rfl

/-- C9: after cleaning, no record's State field contains a digit; the state
`"03"` is rewritten to exactly `"Tribal PWS"`; and a record with state
`"03"` and one with state `"Tribal PWS"` fall into the same aggregate
partition — the concrete two-record pipeline run aggregated by state emits
a single aggregate row, for the key `("Tribal PWS", "X")`. -/
theorem C9_state_cleanup :
    (∀ (df : List Record), ∀ r ∈ df.map cleanRecord, ∀ c ∈ r.State.data,
      c.isDigit = false) ∧
    cleanState "03" = "Tribal PWS" ∧
    ∃ rows : List AggRow,
      pipeline
        [[{ State := "03", Contaminant := "X", AnalyticalResultsSign := "<",
            MRL := some 2 },
          { State := "Tribal PWS", Contaminant := "X",
            AnalyticalResultsSign := "<", MRL := some 2 }]]
        "half" "state"
        = Output.aggregated rows ∧
      rows.map (fun a => (a.groupVal, a.Contaminant)) = [("Tribal PWS", "X")] := by
  refine ⟨?_, ?_, ?_⟩
  · intro df r hr c hc
    rcases List.mem_map.1 hr with ⟨r₀, _, rfl⟩
    exact cleanStateChars_not_digit _ _ _ hc
  · decide
  · exact ⟨_, rfl, by decide⟩

/-- Witness for C9's universally quantified part: the character `T` of a
cleaned state field is not a digit. -/
theorem C9_state_cleanup_witness : ('T' : Char).isDigit = false :=
  C9_state_cleanup.1 [{ State := "0AB3" }] (cleanRecord { State := "0AB3" })
    (List.mem_map_of_mem cleanRecord (List.mem_singleton.2 rfl)) 'T' (by decide)

/-- C10: with no aggregation requested, the pipeline's per-record output
lists the records in the same order as the concatenated input — the
underlying records of the output rows are exactly the cleaned input
records in input order; concretely, an input with PWSIDs `B` then `A`
keeps that order, while the discarded `sort_values` of line 147 would
have reordered it to `A` then `B`. -/
theorem C10_order_preserved :
    (∀ (dfs : List (List Record)) (nd : String),
      ∃ rows : List ProcRow,
        pipeline dfs nd "none" = Output.perRecord rows ∧
        rows.map (fun p => p.row) = (dfs.flatten).map cleanRecord) ∧
    pipeline [[{ PWSID := "B" }, { PWSID := "A" }]] "half" "none"
      = Output.perRecord
          [⟨{ PWSID := "B" }, none⟩, ⟨{ PWSID := "A" }, none⟩] ∧
    sort_values [{ PWSID := "B" }, { PWSID := "A" }]
      = [{ PWSID := "A" }, { PWSID := "B" }] := by
  refine ⟨?_, ?_, ?_⟩
  · intro dfs nd
    refine ⟨((dfs.flatten).map cleanRecord).map
      (fun r => ⟨r, process_nondetects r nd⟩), ?_, ?_⟩
    · rfl
    · rw [List.map_map]
      exact List.map_id _
  · decide
  · decide

end UCMR4
